import Mathlib

/-!
Verification of the Event/Booking data model and the two HTTP route handlers
of the booking application.  The definitions below are shallow embeddings of
the TypeScript source files:

  * `src/database/event.model.ts`   — `slugify`, the Event schema and its
    pre-save validation/normalization hook, the unique slug index;
  * `src/database/booking.model.ts` — the Booking schema (trim/lowercase
    setters, schema-level email validator) and its pre-save hook (simple
    email regex, referential check against the Event store);
  * `src/app/api/events/route.ts`   — `POST /api/events`;
  * `src/unnamed/part_002`          — `GET /api/events/[slug]`
    (`normalizeAndValidateSlug` and the handler).

JavaScript strings are modelled as Lean `String`s; the character-level
operations (`trim`, `toLowerCase`, the regexes, which are all ASCII-shaped)
are implemented over `List Char` with `Char.toNat` arithmetic.  Mongoose
semantics that matter here: path setters (`trim`, `lowercase`) run at
assignment time, schema validation runs before user `pre('save')` hooks,
and a user hook throwing rejects the save.
-/

/-- Models the JavaScript whitespace class `\s` (and `String.prototype.trim`)
on the ASCII range: space, tab, line feed, vertical tab, form feed,
carriage return. -/
def jsSpace (c : Char) : Bool :=
  c.toNat = 32 || c.toNat = 9 || c.toNat = 10 || c.toNat = 11 || c.toNat = 12 || c.toNat = 13

/-- Models `String.prototype.toLowerCase` on the ASCII range: uppercase
letters are shifted by 32, every other character is unchanged. -/
def toLowerChar (c : Char) : Char :=
  if 65 ≤ c.toNat ∧ c.toNat ≤ 90 then Char.ofNat (c.toNat + 32) else c

/-- Removes leading and trailing JavaScript whitespace, as
`String.prototype.trim` does. -/
def trimList (l : List Char) : List Char :=
  ((l.dropWhile jsSpace).reverse.dropWhile jsSpace).reverse

/-- `String.prototype.trim`. -/
def jsTrim (s : String) : String := ⟨trimList s.data⟩

/-- `String.prototype.toLowerCase`. -/
def jsLower (s : String) : String := ⟨s.data.map toLowerChar⟩

/-- Character class `[a-z]`. -/
def isLowerAZ (c : Char) : Bool := 97 ≤ c.toNat && c.toNat ≤ 122

/-- Character class `[0-9]`. -/
def isDigitC (c : Char) : Bool := 48 ≤ c.toNat && c.toNat ≤ 57

/-- Character class `[a-z0-9\s-]`: the characters kept by the
`replace(/[^a-z0-9\s-]/g, '')` step of `slugify`. -/
def slugKeep (c : Char) : Bool := isLowerAZ c || isDigitC c || jsSpace c || c = '-'

/-- The `replace(/\s+/g, '-')` step of `slugify`: every maximal run of
whitespace becomes a single dash.  The boolean argument records whether the
previous character belonged to a whitespace run. -/
def spacesToDashes : Bool → List Char → List Char
  | _, [] => []
  | prevSp, c :: cs =>
    if jsSpace c then
      if prevSp then spacesToDashes true cs else '-' :: spacesToDashes true cs
    else c :: spacesToDashes false cs

/-- The dash-collapsing replace step of `slugify`: every maximal run of dashes
becomes a single dash.  The boolean argument records whether the previous
character belonged to a dash run. -/
def collapseDashes : Bool → List Char → List Char
  | _, [] => []
  | prev, c :: cs =>
    if c = '-' then
      if prev then collapseDashes true cs else '-' :: collapseDashes true cs
    else c :: collapseDashes false cs

/-- One leading dash removed, if present: the `^-` alternative of the
`replace(/^-|-$/g, '')` step of `slugify`. -/
def dropLeadingDash (l : List Char) : List Char :=
  match l with
  | [] => []
  | c :: t => if c = '-' then t else c :: t

/-- One trailing dash removed, if present: the `-$` alternative of the
`replace(/^-|-$/g, '')` step of `slugify`. -/
def dropTrailingDash (l : List Char) : List Char :=
  (dropLeadingDash l.reverse).reverse

/-- The `slugify` pipeline of `src/database/event.model.ts` over a character
list: lowercase, trim, remove invalid characters, whitespace runs to dashes,
collapse consecutive dashes, strip a leading and a trailing dash. -/
def slugifyList (l : List Char) : List Char :=
  dropTrailingDash (dropLeadingDash (collapseDashes false
    (spacesToDashes false ((trimList (l.map toLowerChar)).filter slugKeep))))

/-- `slugify` from `src/database/event.model.ts`. -/
def slugify (s : String) : String := ⟨slugifyList s.data⟩

/-- Splits a character list at the first occurrence of `sep`; `none` when
`sep` does not occur.  Used to decompose an email into local part and
domain at its first `@`, the way both email regexes do (their character
classes exclude `@`). -/
def splitFirst (sep : Char) : List Char → Option (List Char × List Char)
  | [] => none
  | c :: t =>
    if c = sep then some ([], t)
    else match splitFirst sep t with
      | none => none
      | some (a, b) => some (c :: a, b)

/-- Character class `[a-zA-Z]`. -/
def isAlphaC (c : Char) : Bool :=
  (65 ≤ c.toNat && c.toNat ≤ 90) || (97 ≤ c.toNat && c.toNat ≤ 122)

/-- Character class `[a-zA-Z0-9._%+-]` of the schema-level email regex in
`src/database/booking.model.ts`. -/
def emailLocalClass (c : Char) : Bool :=
  isAlphaC c || isDigitC c || c = '.' || c = '_' || c = '%' || c = '+' || c = '-'

/-- Character class `[a-zA-Z0-9.-]` of the schema-level email regex. -/
def emailDomainClass (c : Char) : Bool :=
  isAlphaC c || isDigitC c || c = '.' || c = '-'

/-- The schema-level email validator of `src/database/booking.model.ts`:
the anchored regex requiring a local part over `[a-zA-Z0-9._%+-]`, an `@`,
a domain over `[a-zA-Z0-9.-]`, a dot, and a top-level domain of at least
two letters.  A string matches exactly when it splits at its unique `@`
into a non-empty local part of the local class and a domain whose segment
after the last dot is at least two letters, the rest of the domain being
non-empty and of the domain class. -/
def schemaEmailMatch (s : String) : Bool :=
  match splitFirst '@' s.data with
  | none => false
  | some (loc, dom) =>
    let r := dom.reverse
    (!loc.isEmpty) && loc.all emailLocalClass &&
    (2 ≤ (r.takeWhile isAlphaC).length) &&
    (match r.dropWhile isAlphaC with
     | '.' :: rest => (!rest.isEmpty) && rest.all emailDomainClass
     | _ => false)

/-- Character class of the simple email regex in the pre-save hook of
`src/database/booking.model.ts`: any character that is neither JavaScript
whitespace nor `@`. -/
def simpleEmailClass (c : Char) : Bool := !(jsSpace c) && !(c = '@')

/-- The simple email validator of the Booking pre-save hook: an anchored
regex requiring a non-empty local part, an `@`, and a domain containing a
dot with non-empty text on both sides, all over the no-whitespace-no-at
class.  The domain condition is equivalent to: every domain character is in
the class and some dot occurs at an interior position. -/
def simpleEmailMatch (s : String) : Bool :=
  match splitFirst '@' s.data with
  | none => false
  | some (loc, dom) =>
    (!loc.isEmpty) && loc.all simpleEmailClass &&
    dom.all simpleEmailClass && ((dom.drop 1).dropLast.contains '.')

/-- Error taxonomy of the save pipelines: Mongoose validation failures and
hook-thrown validation messages are `validationError`, the duplicate-key
failure of the unique slug index is `conflictError`, and the Booking hook's
missing-referenced-event failure is `referenceError`. -/
inductive SaveError where
  | validationError (msg : String)
  | conflictError
  | referenceError
deriving DecidableEq

instance {ε α : Type} [DecidableEq ε] [DecidableEq α] : DecidableEq (Except ε α) :=
  fun a b =>
    match a, b with
    | .ok x, .ok y =>
      if h : x = y then isTrue (by rw [h])
      else isFalse (by intro he; injection he; contradiction)
    | .error x, .error y =>
      if h : x = y then isTrue (by rw [h])
      else isFalse (by intro he; injection he; contradiction)
    | .ok _, .error _ => isFalse (by intro h; exact Except.noConfusion h)
    | .error _, .ok _ => isFalse (by intro h; exact Except.noConfusion h)

/-- Booking attributes as supplied to `Booking.create`. -/
structure BookingInput where
  eventId : Nat
  email : String
deriving DecidableEq

/-- A persisted Booking document. -/
structure BookingRecord where
  eventId : Nat
  email : String
deriving DecidableEq

/-- The Booking save pipeline of `src/database/booking.model.ts` against a
store holding the ids of the existing Events.  In order: the schema path
setters (`trim`, `lowercase`) normalize the email at assignment; schema
validation applies the strict email regex (validation runs before user
pre-save hooks); the pre-save hook re-normalizes, applies the simple email
regex, and checks `Event.exists` for the referenced id before the document
is persisted. -/
def createBooking (eventIds : List Nat) (b : BookingInput) : Except SaveError BookingRecord :=
  let email0 := jsLower (jsTrim b.email)
  if schemaEmailMatch email0 = false then
    .error (.validationError (email0 ++ " is not a valid email address!"))
  else
    let normalized := jsLower (jsTrim email0)
    if simpleEmailMatch normalized = false then
      .error (.validationError "Invalid email format.")
    else if eventIds.contains b.eventId = false then
      .error .referenceError
    else
      .ok { eventId := b.eventId, email := normalized }

/-- Event attributes as supplied to `Event.create` (all strings come from a
form body; `agenda` and `tags` are string arrays after Mongoose casting). -/
structure EventInput where
  title : String
  slug : String
  description : String
  overview : String
  image : String
  venue : String
  location : String
  date : String
  time : String
  mode : String
  audience : String
  agenda : List String
  organizer : String
  tags : List String
deriving DecidableEq

/-- A persisted Event document, after the pre-save normalizations. -/
structure EventRecord where
  title : String
  slug : String
  description : String
  overview : String
  image : String
  venue : String
  location : String
  date : String
  time : String
  mode : String
  audience : String
  agenda : List String
  organizer : String
  tags : List String
deriving DecidableEq

/-- A parsed calendar date. -/
structure CalendarDate where
  year : Nat
  month : Nat
  day : Nat
deriving DecidableEq

def isLeapYear (y : Nat) : Bool := (y % 4 = 0 && y % 100 ≠ 0) || y % 400 = 0

def daysInMonth (y m : Nat) : Nat :=
  if m = 2 then (if isLeapYear y then 29 else 28)
  else if m = 4 || m = 6 || m = 9 || m = 11 then 30 else 31

/-- Models the JavaScript `new Date(string)` parse on ISO calendar-date
strings `YYYY-MM-DD` (the format the application feeds it): the result is a
valid date exactly when the digits are well-formed and the month and day
are in range for the (leap-aware) calendar; anything else is an invalid
date, for which `getTime()` is NaN. -/
def parseJsDate (s : String) : Option CalendarDate :=
  match s.data with
  | [y1, y2, y3, y4, s1, m1, m2, s2, d1, d2] =>
    if s1 = '-' ∧ s2 = '-' ∧ [y1, y2, y3, y4, m1, m2, d1, d2].all isDigitC then
      let y := 1000 * (y1.toNat - 48) + 100 * (y2.toNat - 48) + 10 * (y3.toNat - 48) + (y4.toNat - 48)
      let m := 10 * (m1.toNat - 48) + (m2.toNat - 48)
      let d := 10 * (d1.toNat - 48) + (d2.toNat - 48)
      if 1 ≤ m ∧ m ≤ 12 ∧ 1 ≤ d ∧ d ≤ daysInMonth y m then some ⟨y, m, d⟩ else none
    else none
  | _ => none

def pad2 (n : Nat) : String := if n < 10 then "0" ++ toString n else toString n

/-- Models `Date.prototype.toISOString` for a date-only parse, which JS
interprets as UTC midnight. -/
def toISOString (d : CalendarDate) : String :=
  toString d.year ++ "-" ++ pad2 d.month ++ "-" ++ pad2 d.day ++ "T00:00:00.000Z"

/-- The time regex of the Event pre-save hook, anchored `HH:MM` in
24-hour form: first digit 0/1 with any second digit, or 2 with second
digit 0-3, then a colon, then minutes 00-59. -/
def timePatternMatch (s : String) : Bool :=
  match s.data with
  | [h1, h2, c, m1, m2] =>
    (c = ':') &&
    (((h1 = '0' || h1 = '1') && isDigitC h2) ||
     (h1 = '2' && (48 ≤ h2.toNat && h2.toNat ≤ 51))) &&
    (48 ≤ m1.toNat && m1.toNat ≤ 53) && isDigitC m2
  | _ => false

/-- Shorthand for a validation failure of the Event pipeline. -/
def fail (m : String) : Except SaveError EventRecord := .error (.validationError m)

def reqMsg (f : String) : String :=
  "Field " ++ f ++ " is required and must be a non-empty string."

/-- The check `ensureNonEmptyStringArray` of the Event pre-save hook: the
list is non-empty and every entry is non-empty after trimming (entries are
strings by typing). -/
def nonEmptyStringList (l : List String) : Bool :=
  (decide (l ≠ [])) && l.all (fun x => decide (jsTrim x ≠ ""))

/-- The Event document built by a successful save: text fields trimmed,
date normalized to ISO-8601, time trimmed, and the slug recomputed from the
trimmed title (on a freshly created document `isModified('title')` is
always true, so the hook always assigns `slugify(title)`). -/
def mkEventRecord (e : EventInput) (d : CalendarDate) : EventRecord :=
  { title := jsTrim e.title
    slug := slugify (jsTrim e.title)
    description := jsTrim e.description
    overview := jsTrim e.overview
    image := jsTrim e.image
    venue := jsTrim e.venue
    location := jsTrim e.location
    date := toISOString d
    time := jsTrim e.time
    mode := jsTrim e.mode
    audience := jsTrim e.audience
    agenda := e.agenda
    organizer := jsTrim e.organizer
    tags := e.tags }

/-- The Event save pipeline of `src/database/event.model.ts` on a freshly
created document.  Mongoose schema validation runs before the user pre-save
hook; every schema-level check (required non-empty strings, non-empty
agenda/tags arrays) is implied by the corresponding hook check — with one
exception: `slug` is `required` at schema level but only assigned by the
hook, so an input without a slug is rejected before the hook can generate
one.  The hook then checks the required text fields are non-empty after
trimming (storing the trimmed values), checks agenda and tags, parses and
normalizes the date, validates and trims the time, and recomputes the slug
from the title. -/
def validateEvent (e : EventInput) : Except SaveError EventRecord :=
  if e.slug = "" then fail "Path slug is required."
  else if jsTrim e.title = "" then fail (reqMsg "title")
  else if jsTrim e.description = "" then fail (reqMsg "description")
  else if jsTrim e.overview = "" then fail (reqMsg "overview")
  else if jsTrim e.image = "" then fail (reqMsg "image")
  else if jsTrim e.venue = "" then fail (reqMsg "venue")
  else if jsTrim e.location = "" then fail (reqMsg "location")
  else if jsTrim e.date = "" then fail (reqMsg "date")
  else if jsTrim e.time = "" then fail (reqMsg "time")
  else if jsTrim e.mode = "" then fail (reqMsg "mode")
  else if jsTrim e.audience = "" then fail (reqMsg "audience")
  else if jsTrim e.organizer = "" then fail (reqMsg "organizer")
  else if nonEmptyStringList e.agenda = false then
    fail "Field agenda must be a non-empty array of non-empty strings."
  else if nonEmptyStringList e.tags = false then
    fail "Field tags must be a non-empty array of non-empty strings."
  else
    match parseJsDate (jsTrim e.date) with
    | none => fail "Invalid date format. Expected a valid date string."
    | some d =>
      if timePatternMatch (jsTrim e.time) = false then
        fail "Invalid time format. Expected HH:MM in 24-hour format."
      else .ok (mkEventRecord e d)

/-- Creating an Event: run the validation/normalization pipeline, then
insert.  Modelled from the spec: the unique index on `slug` declared by the
schema (`unique: true` and `eventSchema.index`) is enforced by the
database, so inserting a document whose slug equals a stored one fails with
the duplicate-key `ConflictError`. -/
def createEvent (store : List EventRecord) (e : EventInput) :
    Except SaveError (EventRecord × List EventRecord) :=
  match validateEvent e with
  | .error err => .error err
  | .ok r =>
    if store.any (fun x => x.slug == r.slug) then .error .conflictError
    else .ok (r, store ++ [r])

/-- A concrete well-formed Event input used by witnesses. -/
def e1demo : EventInput :=
  { title := "Demo Event"
    slug := "placeholder"
    description := "d"
    overview := "o"
    image := "i"
    venue := "v"
    location := "l"
    date := "2025-01-01"
    time := "09:30"
    mode := "m"
    audience := "a"
    agenda := ["item"]
    organizer := "g"
    tags := ["tag"] }

/-- The Event document produced by saving `e1demo`. -/
def r1demo : EventRecord :=
  { title := "Demo Event"
    slug := "demo-event"
    description := "d"
    overview := "o"
    image := "i"
    venue := "v"
    location := "l"
    date := "2025-01-01T00:00:00.000Z"
    time := "09:30"
    mode := "m"
    audience := "a"
    agenda := ["item"]
    organizer := "g"
    tags := ["tag"] }

/-- JSON response of the GET handler: status, the message or error text,
and the returned event on success. -/
structure GetResponse where
  status : Nat
  message : String
  event : Option EventRecord
deriving DecidableEq

/-- `normalizeAndValidateSlug` from the GET route: trim and lowercase, then
reject the empty string and anything outside `^[a-z0-9-]+$`. -/
def normalizeAndValidateSlug (raw : String) : Option String :=
  if jsLower (jsTrim raw) = "" then none
  else if (jsLower (jsTrim raw)).data.all (fun c => isLowerAZ c || isDigitC c || c = '-') then
    some (jsLower (jsTrim raw))
  else none

/-- `GET /api/events/[slug]`.  `connect` is the outcome of
`connectToDatabase` (an exception is caught by the handler's catch-all);
`slug?` is the dynamic route parameter, `none` standing for a missing
value, which is falsy like the empty string.  `findOne` with a `null` slug
(an invalid slug sanitizes to `none`) matches no stored document, since
every stored Event has a string slug. -/
def getEventBySlug (connect : Except String Unit) (store : List EventRecord)
    (slug? : Option String) : GetResponse :=
  match connect with
  | .error _ => ⟨500, "Failed to fetch event. Please try again later.", none⟩
  | .ok _ =>
    match slug? with
    | none => ⟨404, "Invalid or missing slug parameter", none⟩
    | some s =>
      if s = "" ∨ jsTrim s = "" then ⟨404, "Invalid or missing slug parameter", none⟩
      else
        match store.find? (fun ev => normalizeAndValidateSlug s == some ev.slug) with
        | none => ⟨404, "Event with " ++ s ++ " not found", none⟩
        | some ev => ⟨200, "API fetched successfully", some ev⟩

/-- JSON response of the POST handler. -/
structure PostResponse where
  status : Nat
  message : String
  event : Option EventRecord
deriving DecidableEq

/-- Looks up a form field by name; `Object.fromEntries` keeps the last
value of a duplicated key. -/
def lookupField (fields : List (String × String)) (k : String) : Option String :=
  (fields.reverse.find? (fun p => p.1 == k)).map (fun p => p.2)

def fieldOr (fields : List (String × String)) (k : String) : String :=
  (lookupField fields k).getD ""

/-- Models `Object.fromEntries(formData.entries())` followed by Mongoose's
casting of the plain object to Event attributes: a missing field becomes
empty, and a single string value for `agenda`/`tags` is cast to a
one-element string array.  This is a total function: converting a
`FormData`'s entries to an object cannot throw. -/
def eventInputOfFields (fields : List (String × String)) : EventInput :=
  { title := fieldOr fields "title"
    slug := fieldOr fields "slug"
    description := fieldOr fields "description"
    overview := fieldOr fields "overview"
    image := fieldOr fields "image"
    venue := fieldOr fields "venue"
    location := fieldOr fields "location"
    date := fieldOr fields "date"
    time := fieldOr fields "time"
    mode := fieldOr fields "mode"
    audience := fieldOr fields "audience"
    agenda := match lookupField fields "agenda" with | none => [] | some v => [v]
    organizer := fieldOr fields "organizer"
    tags := match lookupField fields "tags" with | none => [] | some v => [v] }

/-- `POST /api/events`.  `body` is the outcome of `await req.formData()`:
it sits outside the handler's inner try/catch, so when the body cannot be
parsed as form data the exception propagates to the outer catch and the
response is 500 `Event Creation Failed` — the inner catch's 400
`Invalid Form Data` branch only guards `Object.fromEntries`, which never
throws, and is therefore unreachable. -/
def postEvents (connect : Except String Unit) (body : Except String (List (String × String)))
    (store : List EventRecord) : PostResponse :=
  match connect with
  | .error _ => ⟨500, "Event Creation Failed", none⟩
  | .ok _ =>
    match body with
    | .error _ => ⟨500, "Event Creation Failed", none⟩
    | .ok fields =>
      match createEvent store (eventInputOfFields fields) with
      | .error _ => ⟨500, "Event Creation Failed", none⟩
      | .ok (r, _) => ⟨201, "Event created successfully", some r⟩

/-- A well-formed form body for the demo event. -/
def demoFields : List (String × String) :=
  [("title", "Demo Event"), ("slug", "placeholder"), ("description", "d"),
   ("overview", "o"), ("image", "i"), ("venue", "v"), ("location", "l"),
   ("date", "2025-01-01"), ("time", "09:30"), ("mode", "m"),
   ("audience", "a"), ("agenda", "item"), ("organizer", "g"), ("tags", "tag")]

/-- All per-text-field checks of the Event pipeline pass: a slug is present
(schema `required`), and every required text field is non-empty after
trimming. -/
def TextOk (e : EventInput) : Prop :=
  e.slug ≠ "" ∧ jsTrim e.title ≠ "" ∧ jsTrim e.description ≠ "" ∧
  jsTrim e.overview ≠ "" ∧ jsTrim e.image ≠ "" ∧ jsTrim e.venue ≠ "" ∧
  jsTrim e.location ≠ "" ∧ jsTrim e.date ≠ "" ∧ jsTrim e.time ≠ "" ∧
  jsTrim e.mode ≠ "" ∧ jsTrim e.audience ≠ "" ∧ jsTrim e.organizer ≠ ""

instance (e : EventInput) : Decidable (TextOk e) := by
  unfold TextOk; infer_instance

/-- The whole email-validation path of the Booking pipeline accepts the
given raw email: after the setter normalization (trim, lowercase) it
matches the schema regex, and after the hook's re-normalization it matches
the simple regex. -/
def emailPathOk (s : String) : Bool :=
  schemaEmailMatch (jsLower (jsTrim s)) &&
  simpleEmailMatch (jsLower (jsTrim (jsLower (jsTrim s))))

/-- Characters a finished slug may contain. -/
def allowedSlugChar (c : Char) : Bool := isLowerAZ c || isDigitC c || c = '-'

/-- No two adjacent characters of the list are both dashes. -/
def NoDD (l : List Char) : Prop := l.Chain' (fun a b => ¬(a = '-' ∧ b = '-'))

example : slugify "Hello, World!" = "hello-world" := by decide

example : slugify "  multiple   spaces " = "multiple-spaces" := by decide

example : slugify "" = "" := by decide

example : slugify "---" = "" := by decide

example : slugify "!!!" = "" := by decide

example : simpleEmailMatch "a@b.com" = true := by decide

example : simpleEmailMatch "a@b.c" = true := by decide

example : simpleEmailMatch "a b@c.de" = false := by decide

example : simpleEmailMatch "a@b" = false := by decide

example : schemaEmailMatch "a@b.com" = true := by decide

example : schemaEmailMatch "a@b.c" = false := by decide

example : schemaEmailMatch "a!b@c.de" = false := by decide

example : schemaEmailMatch "a.x+y@c-d.co" = true := by decide

example : createBooking [1] { eventId := 1, email := "A@B.COM" } =
    .ok { eventId := 1, email := "a@b.com" } := by decide

example : createBooking [] { eventId := 1, email := "a@b.com" } =
    .error .referenceError := by decide

example : createBooking [1] { eventId := 1, email := "a@b.c" } =
    .error (.validationError "a@b.c is not a valid email address!") := by decide

example : timePatternMatch "09:30" = true := by decide

example : timePatternMatch "9:30" = false := by decide

example : timePatternMatch "23:59" = true := by decide

example : timePatternMatch "24:00" = false := by decide

example : timePatternMatch "10:60" = false := by decide

example : parseJsDate "2025-01-01" = some ⟨2025, 1, 1⟩ := by decide

example : parseJsDate "2025-02-29" = none := by decide

example : parseJsDate "2024-02-29" = some ⟨2024, 2, 29⟩ := by decide

example : parseJsDate "hello" = none := by decide

example : validateEvent e1demo = .ok r1demo := by decide

example : createEvent [] e1demo = .ok (r1demo, [r1demo]) := by decide

example : createEvent [r1demo] e1demo = .error .conflictError := by decide

example : validateEvent { e1demo with time := "9:30" } =
    .error (.validationError "Invalid time format. Expected HH:MM in 24-hour format.") := by decide

example : validateEvent { e1demo with agenda := [] } =
    .error (.validationError "Field agenda must be a non-empty array of non-empty strings.") := by decide

example : validateEvent { e1demo with slug := "" } =
    .error (.validationError "Path slug is required.") := by decide

example : getEventBySlug (.ok ()) [r1demo] (some " DEMO-EVENT") =
    ⟨200, "API fetched successfully", some r1demo⟩ := by decide

example : getEventBySlug (.ok ()) [r1demo] (some "nope") =
    ⟨404, "Event with nope not found", none⟩ := by decide

example : getEventBySlug (.ok ()) [r1demo] (some "bad_slug!") =
    ⟨404, "Event with bad_slug! not found", none⟩ := by decide

example : getEventBySlug (.ok ()) [r1demo] none =
    ⟨404, "Invalid or missing slug parameter", none⟩ := by decide

example : getEventBySlug (.error "down") [r1demo] (some "demo-event") =
    ⟨500, "Failed to fetch event. Please try again later.", none⟩ := by decide

example : eventInputOfFields demoFields = e1demo := by decide

example : postEvents (.ok ()) (.ok demoFields) [] =
    ⟨201, "Event created successfully", some r1demo⟩ := by decide

example : postEvents (.ok ()) (.error "bad body") [] =
    ⟨500, "Event Creation Failed", none⟩ := by decide

theorem validateEvent_textOk (e : EventInput) (h : TextOk e)
    (ha : nonEmptyStringList e.agenda = true) (ht : nonEmptyStringList e.tags = true) :
    validateEvent e = match parseJsDate (jsTrim e.date) with
      | none => fail "Invalid date format. Expected a valid date string."
      | some d =>
        if timePatternMatch (jsTrim e.time) = false then
          fail "Invalid time format. Expected HH:MM in 24-hour format."
        else .ok (mkEventRecord e d) := by
  obtain ⟨h1, h2, h3, h4, h5, h6, h7, h8, h9, h10, h11, h12⟩ := h
  unfold validateEvent
  rw [if_neg h1, if_neg h2, if_neg h3, if_neg h4, if_neg h5, if_neg h6, if_neg h7,
    if_neg h8, if_neg h9, if_neg h10, if_neg h11, if_neg h12,
    if_neg (by simp [ha]), if_neg (by simp [ht])]

/-- C6: for every Event create, the trimmed time field is validated against
the 24-hour pattern: given that all other checks pass, the save succeeds
exactly when the trimmed time matches, the time is stored as the trimmed
string, a non-match fails with a ValidationError, and concretely the
pattern rejects 9:30 and accepts 09:30. -/
theorem eventTimeValidation (e : EventInput) (h : TextOk e)
    (ha : nonEmptyStringList e.agenda = true) (ht : nonEmptyStringList e.tags = true) :
    (timePatternMatch "9:30" = false ∧ timePatternMatch "09:30" = true)
    ∧ (∀ d, parseJsDate (jsTrim e.date) = some d →
        timePatternMatch (jsTrim e.time) = true →
        validateEvent e = .ok (mkEventRecord e d) ∧ (mkEventRecord e d).time = jsTrim e.time)
    ∧ (∀ d, parseJsDate (jsTrim e.date) = some d →
        timePatternMatch (jsTrim e.time) = false →
        validateEvent e =
          .error (.validationError "Invalid time format. Expected HH:MM in 24-hour format.")) := by
  refine ⟨by decide, ?_, ?_⟩
  · intro d hd htime
    rw [validateEvent_textOk e h ha ht, hd]
    simp [htime, mkEventRecord]
  · intro d hd htime
    rw [validateEvent_textOk e h ha ht, hd]
    simp [htime, fail]

/-- C7: for every Event create, the (trimmed) date string is parsed: given
that all other checks pass, a string that does not parse to a valid
calendar date fails with a ValidationError, and on success the stored date
is the parsed date normalized to an absolute ISO-8601 string. -/
theorem eventDateValidation (e : EventInput) (h : TextOk e)
    (ha : nonEmptyStringList e.agenda = true) (ht : nonEmptyStringList e.tags = true) :
    (parseJsDate (jsTrim e.date) = none →
      validateEvent e = .error (.validationError "Invalid date format. Expected a valid date string."))
    ∧ (∀ d, parseJsDate (jsTrim e.date) = some d →
        timePatternMatch (jsTrim e.time) = true →
        validateEvent e = .ok (mkEventRecord e d) ∧ (mkEventRecord e d).date = toISOString d) := by
  constructor
  · intro hd
    rw [validateEvent_textOk e h ha ht, hd]
    rfl
  · intro d hd htime
    rw [validateEvent_textOk e h ha ht, hd]
    simp [htime, mkEventRecord]

/-- C8: for every Event create, agenda and tags must each be a non-empty
collection of non-empty strings: given that the text-field checks pass, a
failing agenda (respectively tags) fails the save with a ValidationError,
both passing lets the save proceed to the date/time checks and succeed,
and in particular the empty array fails the collection check. -/
theorem eventArraysValidation (e : EventInput) (h : TextOk e) :
    nonEmptyStringList [] = false
    ∧ (nonEmptyStringList e.agenda = false →
        validateEvent e =
          .error (.validationError "Field agenda must be a non-empty array of non-empty strings."))
    ∧ (nonEmptyStringList e.agenda = true → nonEmptyStringList e.tags = false →
        validateEvent e =
          .error (.validationError "Field tags must be a non-empty array of non-empty strings."))
    ∧ (∀ d, nonEmptyStringList e.agenda = true → nonEmptyStringList e.tags = true →
        parseJsDate (jsTrim e.date) = some d →
        timePatternMatch (jsTrim e.time) = true →
        validateEvent e = .ok (mkEventRecord e d)) := by
  obtain ⟨h1, h2, h3, h4, h5, h6, h7, h8, h9, h10, h11, h12⟩ := h
  refine ⟨by decide, ?_, ?_, ?_⟩
  · intro ha
    unfold validateEvent
    rw [if_neg h1, if_neg h2, if_neg h3, if_neg h4, if_neg h5, if_neg h6, if_neg h7,
      if_neg h8, if_neg h9, if_neg h10, if_neg h11, if_neg h12, if_pos ha]
    rfl
  · intro ha ht
    unfold validateEvent
    rw [if_neg h1, if_neg h2, if_neg h3, if_neg h4, if_neg h5, if_neg h6, if_neg h7,
      if_neg h8, if_neg h9, if_neg h10, if_neg h11, if_neg h12,
      if_neg (by simp [ha]), if_pos ht]
    rfl
  · intro d ha ht hd htime
    rw [validateEvent_textOk e ⟨h1, h2, h3, h4, h5, h6, h7, h8, h9, h10, h11, h12⟩ ha ht, hd]
    simp [htime]

theorem validateEvent_ok_inv (e : EventInput) (r : EventRecord)
    (h : validateEvent e = .ok r) :
    ∃ d, parseJsDate (jsTrim e.date) = some d ∧ r = mkEventRecord e d := by
  unfold validateEvent at h
  by_cases h0 : e.slug = ""
  · rw [if_pos h0] at h; exact Except.noConfusion h
  rw [if_neg h0] at h
  by_cases h1 : jsTrim e.title = ""
  · rw [if_pos h1] at h; exact Except.noConfusion h
  rw [if_neg h1] at h
  by_cases h2 : jsTrim e.description = ""
  · rw [if_pos h2] at h; exact Except.noConfusion h
  rw [if_neg h2] at h
  by_cases h3 : jsTrim e.overview = ""
  · rw [if_pos h3] at h; exact Except.noConfusion h
  rw [if_neg h3] at h
  by_cases h4 : jsTrim e.image = ""
  · rw [if_pos h4] at h; exact Except.noConfusion h
  rw [if_neg h4] at h
  by_cases h5 : jsTrim e.venue = ""
  · rw [if_pos h5] at h; exact Except.noConfusion h
  rw [if_neg h5] at h
  by_cases h6 : jsTrim e.location = ""
  · rw [if_pos h6] at h; exact Except.noConfusion h
  rw [if_neg h6] at h
  by_cases h7 : jsTrim e.date = ""
  · rw [if_pos h7] at h; exact Except.noConfusion h
  rw [if_neg h7] at h
  by_cases h8 : jsTrim e.time = ""
  · rw [if_pos h8] at h; exact Except.noConfusion h
  rw [if_neg h8] at h
  by_cases h9 : jsTrim e.mode = ""
  · rw [if_pos h9] at h; exact Except.noConfusion h
  rw [if_neg h9] at h
  by_cases h10 : jsTrim e.audience = ""
  · rw [if_pos h10] at h; exact Except.noConfusion h
  rw [if_neg h10] at h
  by_cases h11 : jsTrim e.organizer = ""
  · rw [if_pos h11] at h; exact Except.noConfusion h
  rw [if_neg h11] at h
  by_cases h12 : nonEmptyStringList e.agenda = false
  · rw [if_pos h12] at h; exact Except.noConfusion h
  rw [if_neg h12] at h
  by_cases h13 : nonEmptyStringList e.tags = false
  · rw [if_pos h13] at h; exact Except.noConfusion h
  rw [if_neg h13] at h
  cases hd : parseJsDate (jsTrim e.date) with
  | none => rw [hd] at h; exact Except.noConfusion h
  | some d =>
    rw [hd] at h
    have h' : (if timePatternMatch (jsTrim e.time) = false then
        fail "Invalid time format. Expected HH:MM in 24-hour format."
      else Except.ok (mkEventRecord e d)) = Except.ok r := h
    by_cases htime : timePatternMatch (jsTrim e.time) = false
    · rw [if_pos htime] at h'; exact Except.noConfusion h'
    · rw [if_neg htime] at h'
      injection h' with h2
      exact ⟨d, rfl, h2.symm⟩

theorem validateEvent_ok_slug (e : EventInput) (r : EventRecord)
    (h : validateEvent e = .ok r) : r.slug = slugify (jsTrim e.title) := by
  obtain ⟨d, _, rfl⟩ := validateEvent_ok_inv e r h
  rfl

theorem createEvent_ok_inv (store store1 : List EventRecord) (e : EventInput)
    (r : EventRecord) (h : createEvent store e = .ok (r, store1)) :
    validateEvent e = .ok r ∧ store1 = store ++ [r] := by
  unfold createEvent at h
  split at h
  · exact Except.noConfusion h
  · split at h
    · exact Except.noConfusion h
    · injection h with h2
      injection h2 with hr hs
      subst hr
      exact ⟨by assumption, hs.symm⟩

/-- C5: persisting an Event whose slug equals the slug of an already-stored
Event violates the unique slug index and fails with ConflictError; since the
pre-save hook always recomputes the slug of a new document from its trimmed
title, creating a second Event with the same title (after a first creation
succeeded) fails with ConflictError. -/
theorem eventSlugUniqueness :
    (∀ (store : List EventRecord) (e : EventInput) (r : EventRecord),
      validateEvent e = .ok r → (∃ x ∈ store, x.slug = r.slug) →
      createEvent store e = .error .conflictError)
    ∧ (∀ (store store1 : List EventRecord) (e1 e2 : EventInput) (r1 r2 : EventRecord),
      createEvent store e1 = .ok (r1, store1) → validateEvent e2 = .ok r2 →
      jsTrim e2.title = jsTrim e1.title →
      createEvent store1 e2 = .error .conflictError) := by
  have hdup : ∀ (store : List EventRecord) (e : EventInput) (r : EventRecord),
      validateEvent e = .ok r → (∃ x ∈ store, x.slug = r.slug) →
      createEvent store e = .error .conflictError := by
    intro store e r hval ⟨x, hx, hslug⟩
    unfold createEvent
    rw [hval]
    show (if (store.any fun x => x.slug == r.slug) = true then
        Except.error SaveError.conflictError
      else Except.ok (r, store ++ [r])) = Except.error SaveError.conflictError
    rw [if_pos]
    simp only [List.any_eq_true, beq_iff_eq]
    exact ⟨x, hx, hslug⟩
  refine ⟨hdup, ?_⟩
  intro store store1 e1 e2 r1 r2 h1 h2 htitle
  obtain ⟨hval1, hstore1⟩ := createEvent_ok_inv store store1 e1 r1 h1
  apply hdup store1 e2 r2 h2
  refine ⟨r1, ?_, ?_⟩
  · rw [hstore1]; exact List.mem_append_right store (List.mem_singleton.mpr rfl)
  · rw [validateEvent_ok_slug e1 r1 hval1, validateEvent_ok_slug e2 r2 h2, htitle]

/-- Witness for C5 at a concrete store and inputs: after creating the demo
event, creating a second event with the same title fails with
ConflictError. -/
theorem eventSlugUniqueness_witness :
    createEvent [r1demo] { e1demo with slug := "other", description := "d2" } =
      .error .conflictError := by
  exact eventSlugUniqueness.2 [] [r1demo] e1demo
    { e1demo with slug := "other", description := "d2" } r1demo
    { r1demo with description := "d2" } (by decide) (by decide) rfl

theorem createBooking_unfolded (ids : List Nat) (b : BookingInput) :
    createBooking ids b =
      (if schemaEmailMatch (jsLower (jsTrim b.email)) = false then
        Except.error (.validationError (jsLower (jsTrim b.email) ++ " is not a valid email address!"))
      else if simpleEmailMatch (jsLower (jsTrim (jsLower (jsTrim b.email)))) = false then
        Except.error (.validationError "Invalid email format.")
      else if ids.contains b.eventId = false then
        Except.error .referenceError
      else
        Except.ok { eventId := b.eventId, email := jsLower (jsTrim (jsLower (jsTrim b.email))) }) := rfl

/-- Counterexample to C1 as stated: with an empty Event store (so no Event
with id 7 exists) and an email that fails validation, the Booking create
fails with a ValidationError, not with ReferenceError — the email checks of
the pipeline run before the existence query, which is never reached. -/
theorem bookingMissingEventInvalidEmail :
    createBooking [] { eventId := 7, email := "not-an-email" } =
      .error (.validationError "not-an-email is not a valid email address!")
    ∧ ([] : List Nat).contains 7 = false
    ∧ ((createBooking [] { eventId := 7, email := "not-an-email" } =
        .error SaveError.referenceError) = False) := by
  refine ⟨by decide, by decide, eq_false (by decide)⟩

/-- C1 amended: for every Booking create whose email passes the pipeline's
email validation, the create fails with ReferenceError exactly when no
Event with the given eventId exists, and when the referenced Event exists
the Booking is persisted with the given eventId and the normalized email. -/
theorem bookingReferentialCheck (ids : List Nat) (b : BookingInput)
    (h : emailPathOk b.email = true) :
    (createBooking ids b = .error .referenceError ↔ ids.contains b.eventId = false)
    ∧ (ids.contains b.eventId = true →
      createBooking ids b =
        .ok { eventId := b.eventId, email := jsLower (jsTrim (jsLower (jsTrim b.email))) }) := by
  rw [emailPathOk, Bool.and_eq_true] at h
  obtain ⟨hs, hsi⟩ := h
  rw [createBooking_unfolded]
  rw [if_neg (by simp [hs]), if_neg (by simp [hsi])]
  cases hc : ids.contains b.eventId with
  | true =>
    rw [if_neg (by simp)]
    refine ⟨⟨fun hh => Except.noConfusion hh, fun hh => absurd hh (by simp)⟩, fun _ => rfl⟩
  | false =>
    rw [if_pos rfl]
    refine ⟨⟨fun _ => rfl, fun _ => rfl⟩, fun hh => absurd hh (by simp)⟩

/-- Witness for C1 (amended) at concrete inputs: a valid email and an
existing Event id produce a persisted Booking with that id; the same email
against an empty store gives ReferenceError. -/
theorem bookingReferentialCheck_witness :
    createBooking [5] { eventId := 5, email := "USER@Example.COM" } =
      .ok { eventId := 5, email := "user@example.com" }
    ∧ createBooking [] { eventId := 5, email := "USER@Example.COM" } =
      .error .referenceError := by
  constructor
  · exact (bookingReferentialCheck [5] { eventId := 5, email := "USER@Example.COM" }
      (by decide)).2 (by decide)
  · exact (bookingReferentialCheck [] { eventId := 5, email := "USER@Example.COM" }
      (by decide)).1.mpr (by decide)

/-- Counterexample to C2 as stated: the email a@b.c is already trimmed and
lowercase and matches the simple pattern of the pre-save hook, yet with a
valid eventId the Booking create fails with a ValidationError — the
schema-level regex (which requires a top-level domain of at least two
letters) runs first and rejects it. -/
theorem bookingSimplePatternInsufficient :
    jsLower (jsTrim "a@b.c") = "a@b.c"
    ∧ simpleEmailMatch "a@b.c" = true
    ∧ ([1] : List Nat).contains 1 = true
    ∧ createBooking [1] { eventId := 1, email := "a@b.c" } =
        .error (.validationError "a@b.c is not a valid email address!") := by
  refine ⟨by decide, by decide, by decide, by decide⟩

/-- C2 amended: for every Booking create with an existing eventId, the
email is normalized to its trimmed lowercase form; the create fails with a
ValidationError exactly when the normalized email fails the email-validation
path (the schema regex, checked first, and then the hook's simple regex);
on success the stored email is the normalized form — concretely, input
A@B.COM is stored as a@b.com. -/
theorem bookingEmailNormalization (ids : List Nat) (b : BookingInput)
    (hev : ids.contains b.eventId = true) :
    (emailPathOk b.email = true →
      createBooking ids b =
        .ok { eventId := b.eventId, email := jsLower (jsTrim (jsLower (jsTrim b.email))) })
    ∧ (emailPathOk b.email = false →
      ∃ m, createBooking ids b = .error (.validationError m))
    ∧ createBooking [1] { eventId := 1, email := "A@B.COM" } =
        .ok { eventId := 1, email := "a@b.com" } := by
  refine ⟨?_, ?_, by decide⟩
  · intro h
    exact (bookingReferentialCheck ids b h).2 hev
  · intro h
    rw [emailPathOk, Bool.and_eq_false_iff] at h
    rw [createBooking_unfolded]
    cases hsch : schemaEmailMatch (jsLower (jsTrim b.email)) with
    | false =>
      rw [if_pos rfl]
      exact ⟨_, rfl⟩
    | true =>
      rw [if_neg (by simp)]
      rcases h with h | h
      · rw [hsch] at h; exact absurd h (by simp)
      · rw [if_pos h]
        exact ⟨_, rfl⟩

/-- Witness for C2 (amended) at concrete inputs: a valid email is stored
normalized, and an email failing the schema regex yields a
ValidationError. -/
theorem bookingEmailNormalization_witness :
    createBooking [9] { eventId := 9, email := " Alice@Mail.ORG " } =
      .ok { eventId := 9, email := "alice@mail.org" }
    ∧ ∃ m, createBooking [9] { eventId := 9, email := "a@b.c" } =
        .error (.validationError m) := by
  constructor
  · exact (bookingEmailNormalization [9] { eventId := 9, email := " Alice@Mail.ORG " }
      (by decide)).1 (by decide)
  · exact (bookingEmailNormalization [9] { eventId := 9, email := "a@b.c" }
      (by decide)).2.1 (by decide)

/-- C3 (code bug): the POST handler returns 201 on successful creation and
500 otherwise — including when the request body cannot be parsed as form
data, where the spec promises 400.  `req.formData()` sits outside the inner
try/catch, so its exception reaches the catch-all; the 400 branch guards
only `Object.fromEntries`, which never throws, so no execution returns
status 400: every response is 201 or 500. -/
theorem postEventsStatuses :
    postEvents (.ok ()) (.error "unparseable form body") [] =
      ⟨500, "Event Creation Failed", none⟩
    ∧ postEvents (.ok ()) (.ok demoFields) [] =
      ⟨201, "Event created successfully", some r1demo⟩
    ∧ (∀ connect body store, (postEvents connect body store).status = 201 ∨
        (postEvents connect body store).status = 500) := by
  refine ⟨by decide, by decide, ?_⟩
  intro connect body store
  cases connect with
  | error e => right; rfl
  | ok u =>
    cases body with
    | error e => right; rfl
    | ok fields =>
      cases h : createEvent store (eventInputOfFields fields) with
      | error err => right; simp [postEvents, h]
      | ok p =>
        obtain ⟨r, st⟩ := p
        left; simp [postEvents, h]

theorem normalizeAndValidateSlug_empty (s : String) (h : jsTrim s = "") :
    normalizeAndValidateSlug s = none := by
  unfold normalizeAndValidateSlug
  rw [h]
  rfl

/-- C4: the GET-by-slug handler returns a generic 500 on connection
failure, otherwise only 404 or 200; it returns 200 exactly when the route
parameter is present and some stored Event's slug equals its normalized
(trimmed, lowercased, pattern-checked) form — so a missing, empty, invalid
or unknown slug gives 404 — and any event in a response body is a stored
Event matching the normalized slug. -/
theorem getBySlugContract (store : List EventRecord) (slug? : Option String) :
    (∀ m, getEventBySlug (.error m) store slug? =
      ⟨500, "Failed to fetch event. Please try again later.", none⟩)
    ∧ ((getEventBySlug (.ok ()) store slug?).status = 404 ∨
       (getEventBySlug (.ok ()) store slug?).status = 200)
    ∧ ((getEventBySlug (.ok ()) store slug?).status = 200 ↔
       ∃ s, slug? = some s ∧ ∃ ev ∈ store, normalizeAndValidateSlug s = some ev.slug)
    ∧ (∀ ev, (getEventBySlug (.ok ()) store slug?).event = some ev →
       ev ∈ store ∧ ∃ s, slug? = some s ∧ normalizeAndValidateSlug s = some ev.slug) := by
  refine ⟨fun m => rfl, ?_⟩
  cases slug? with
  | none =>
    refine ⟨Or.inl rfl, ?_, ?_⟩
    · constructor
      · intro h
        have h' : (404 : Nat) = 200 := h
        exact absurd h' (by decide)
      · rintro ⟨s, hs, _⟩; exact Option.noConfusion hs
    · intro ev h; exact Option.noConfusion h
  | some s =>
    by_cases hcond : s = "" ∨ jsTrim s = ""
    · have htr : jsTrim s = "" := by
        rcases hcond with h | h
        · rw [h]; rfl
        · exact h
      have hresp : getEventBySlug (.ok ()) store (some s) =
          ⟨404, "Invalid or missing slug parameter", none⟩ := by
        simp only [getEventBySlug]
        rw [if_pos hcond]
      refine ⟨Or.inl (by rw [hresp]), ?_, ?_⟩
      · rw [hresp]
        constructor
        · intro h
          have h' : (404 : Nat) = 200 := h
          exact absurd h' (by decide)
        · rintro ⟨s', hs', ev, _, hnorm⟩
          injection hs' with hs'
          subst hs'
          rw [normalizeAndValidateSlug_empty s htr] at hnorm
          exact Option.noConfusion hnorm
      · intro ev h
        rw [hresp] at h
        exact Option.noConfusion h
    · cases hf : store.find? (fun ev => normalizeAndValidateSlug s == some ev.slug) with
      | none =>
        have hresp : getEventBySlug (.ok ()) store (some s) =
            ⟨404, "Event with " ++ s ++ " not found", none⟩ := by
          simp only [getEventBySlug]
          rw [if_neg hcond, hf]
        refine ⟨Or.inl (by rw [hresp]), ?_, ?_⟩
        · rw [hresp]
          constructor
          · intro h
            have h' : (404 : Nat) = 200 := h
            exact absurd h' (by decide)
          · rintro ⟨s', hs', ev, hev, hnorm⟩
            injection hs' with hs'
            subst hs'
            have := List.find?_eq_none.mp hf ev hev
            rw [hnorm] at this
            exact absurd (by simp) this
        · intro ev h
          rw [hresp] at h
          exact Option.noConfusion h
      | some ev =>
        have hresp : getEventBySlug (.ok ()) store (some s) =
            ⟨200, "API fetched successfully", some ev⟩ := by
          simp only [getEventBySlug]
          rw [if_neg hcond, hf]
        have hmem : ev ∈ store := List.mem_of_find?_eq_some hf
        have hnorm : normalizeAndValidateSlug s = some ev.slug := by
          have := List.find?_some hf
          exact beq_iff_eq.mp this
        refine ⟨Or.inr (by rw [hresp]), ?_, ?_⟩
        · constructor
          · intro _; exact ⟨s, rfl, ev, hmem, hnorm⟩
          · intro _; rw [hresp]
        · intro ev' h
          rw [hresp] at h
          injection h with h
          subst h
          exact ⟨hmem, s, rfl, hnorm⟩

/-- Witness for C4 at concrete inputs: a stored event is fetched with 200
through an un-normalized slug, and an unknown slug yields 404. -/
theorem getBySlugContract_witness :
    (getEventBySlug (.ok ()) [r1demo] (some " DEMO-EVENT")).status = 200
    ∧ (getEventBySlug (.ok ()) [r1demo] (some "unknown")).status = 404 := by
  constructor
  · exact (getBySlugContract [r1demo] (some " DEMO-EVENT")).2.2.1.mpr
      ⟨" DEMO-EVENT", rfl, r1demo, List.Mem.head _, by decide⟩
  · rcases (getBySlugContract [r1demo] (some "unknown")).2.1 with h | h
    · exact h
    · exact absurd ((getBySlugContract [r1demo] (some "unknown")).2.2.1.mp h)
        (by rintro ⟨s, hs, ev, hev, hnorm⟩; injection hs with hs; subst hs;
            simp [List.mem_singleton] at hev; subst hev; revert hnorm; decide)

theorem dropLeadingDash_cons_dash (t : List Char) : dropLeadingDash ('-' :: t) = t := by
  simp [dropLeadingDash]

theorem dropLeadingDash_cons_ne (a : Char) (t : List Char) (ha : ¬(a = '-')) :
    dropLeadingDash (a :: t) = a :: t := by
  simp [dropLeadingDash, ha]

theorem collapseDashes_cons_dash_true (t : List Char) :
    collapseDashes true ('-' :: t) = collapseDashes true t := by
  simp [collapseDashes]

theorem collapseDashes_cons_dash_false (t : List Char) :
    collapseDashes false ('-' :: t) = '-' :: collapseDashes true t := by
  simp [collapseDashes]

theorem collapseDashes_cons_ne (b : Bool) (a : Char) (t : List Char) (ha : ¬(a = '-')) :
    collapseDashes b (a :: t) = a :: collapseDashes false t := by
  simp [collapseDashes, ha]

theorem spacesToDashes_cons_sp_true (a : Char) (t : List Char) (ha : jsSpace a = true) :
    spacesToDashes true (a :: t) = spacesToDashes true t := by
  simp [spacesToDashes, ha]

theorem spacesToDashes_cons_sp_false (a : Char) (t : List Char) (ha : jsSpace a = true) :
    spacesToDashes false (a :: t) = '-' :: spacesToDashes true t := by
  simp [spacesToDashes, ha]

theorem spacesToDashes_cons_ne (b : Bool) (a : Char) (t : List Char) (ha : jsSpace a = false) :
    spacesToDashes b (a :: t) = a :: spacesToDashes false t := by
  simp [spacesToDashes, ha]

theorem mem_dropLeadingDash {c : Char} {l : List Char} (h : c ∈ dropLeadingDash l) : c ∈ l := by
  cases l with
  | nil => exact h
  | cons a t =>
    by_cases ha : a = '-'
    · subst ha
      rw [dropLeadingDash_cons_dash] at h
      exact List.mem_cons_of_mem _ h
    · rwa [dropLeadingDash_cons_ne a t ha] at h

theorem mem_dropTrailingDash {c : Char} {l : List Char} (h : c ∈ dropTrailingDash l) : c ∈ l := by
  unfold dropTrailingDash at h
  rw [List.mem_reverse] at h
  have h2 := mem_dropLeadingDash h
  rwa [List.mem_reverse] at h2

theorem mem_collapseDashes {c : Char} :
    ∀ (l : List Char) (b : Bool), c ∈ collapseDashes b l → c = '-' ∨ c ∈ l := by
  intro l
  induction l with
  | nil => intro b h; cases h
  | cons a t ih =>
    intro b h
    by_cases ha : a = '-'
    · subst ha
      cases b with
      | true =>
        rw [collapseDashes_cons_dash_true] at h
        rcases ih true h with h' | h'
        · exact Or.inl h'
        · exact Or.inr (List.mem_cons_of_mem _ h')
      | false =>
        rw [collapseDashes_cons_dash_false] at h
        rcases List.mem_cons.mp h with h' | h'
        · exact Or.inl h'
        · rcases ih true h' with h'' | h''
          · exact Or.inl h''
          · exact Or.inr (List.mem_cons_of_mem _ h'')
    · rw [collapseDashes_cons_ne b a t ha] at h
      rcases List.mem_cons.mp h with h' | h'
      · subst h'; exact Or.inr (List.mem_cons_self _ _)
      · rcases ih false h' with h'' | h''
        · exact Or.inl h''
        · exact Or.inr (List.mem_cons_of_mem _ h'')

theorem mem_spacesToDashes {c : Char} :
    ∀ (l : List Char) (b : Bool), c ∈ spacesToDashes b l →
      c = '-' ∨ (c ∈ l ∧ jsSpace c = false) := by
  intro l
  induction l with
  | nil => intro b h; cases h
  | cons a t ih =>
    intro b h
    cases ha : jsSpace a with
    | true =>
      cases b with
      | true =>
        rw [spacesToDashes_cons_sp_true a t ha] at h
        rcases ih true h with h' | ⟨h1, h2⟩
        · exact Or.inl h'
        · exact Or.inr ⟨List.mem_cons_of_mem _ h1, h2⟩
      | false =>
        rw [spacesToDashes_cons_sp_false a t ha] at h
        rcases List.mem_cons.mp h with h' | h'
        · exact Or.inl h'
        · rcases ih true h' with h'' | ⟨h1, h2⟩
          · exact Or.inl h''
          · exact Or.inr ⟨List.mem_cons_of_mem _ h1, h2⟩
    | false =>
      rw [spacesToDashes_cons_ne b a t ha] at h
      rcases List.mem_cons.mp h with h' | h'
      · subst h'; exact Or.inr ⟨List.mem_cons_self _ _, ha⟩
      · rcases ih false h' with h'' | ⟨h1, h2⟩
        · exact Or.inl h''
        · exact Or.inr ⟨List.mem_cons_of_mem _ h1, h2⟩

theorem mem_trimList {c : Char} {l : List Char} (h : c ∈ trimList l) : c ∈ l := by
  unfold trimList at h
  rw [List.mem_reverse] at h
  have h2 := (List.dropWhile_sublist jsSpace).mem h
  rw [List.mem_reverse] at h2
  exact (List.dropWhile_sublist jsSpace).mem h2

theorem mem_slugifyList {c : Char} {l : List Char} (h : c ∈ slugifyList l) :
    allowedSlugChar c = true := by
  unfold slugifyList at h
  have h1 := mem_dropLeadingDash (mem_dropTrailingDash h)
  rcases mem_collapseDashes _ false h1 with hd | h2
  · subst hd; rfl
  rcases mem_spacesToDashes _ false h2 with hd | ⟨h3, hsp⟩
  · subst hd; rfl
  have h4 := List.mem_filter.mp h3
  have hkeep := h4.2
  unfold slugKeep at hkeep
  unfold allowedSlugChar
  rcases Bool.or_eq_true_iff.mp hkeep with h5 | h5
  · rcases Bool.or_eq_true_iff.mp h5 with h6 | h6
    · rcases Bool.or_eq_true_iff.mp h6 with h7 | h7
      · rw [h7]; rfl
      · rw [h7]; simp
    · rw [h6] at hsp; exact Bool.noConfusion hsp
  · rw [h5]; simp

theorem head?_collapseDashes_true :
    ∀ (l : List Char) (c : Char), (collapseDashes true l).head? = some c → ¬(c = '-') := by
  intro l
  induction l with
  | nil => intro c h; exact Option.noConfusion h
  | cons a t ih =>
    intro c h
    by_cases ha : a = '-'
    · subst ha
      rw [collapseDashes_cons_dash_true] at h
      exact ih c h
    · rw [collapseDashes_cons_ne true a t ha] at h
      injection h with h
      subst h
      exact ha

theorem noDD_collapseDashes : ∀ (l : List Char) (b : Bool), NoDD (collapseDashes b l) := by
  intro l
  induction l with
  | nil => intro b; exact List.chain'_nil
  | cons a t ih =>
    intro b
    by_cases ha : a = '-'
    · subst ha
      cases b with
      | true => rw [collapseDashes_cons_dash_true]; exact ih true
      | false =>
        rw [collapseDashes_cons_dash_false]
        rw [NoDD, List.chain'_cons']
        refine ⟨?_, ih true⟩
        intro y hy hcontra
        exact head?_collapseDashes_true t y hy hcontra.2
    · rw [collapseDashes_cons_ne b a t ha]
      rw [NoDD, List.chain'_cons']
      refine ⟨?_, ih false⟩
      intro y _ hcontra
      exact ha hcontra.1

theorem noDD_tail_of_cons {a : Char} {t : List Char} (h : NoDD (a :: t)) : NoDD t :=
  (List.chain'_cons'.mp h).2

theorem noDD_dropLeadingDash {l : List Char} (h : NoDD l) : NoDD (dropLeadingDash l) := by
  cases l with
  | nil => exact h
  | cons a t =>
    by_cases ha : a = '-'
    · subst ha; rw [dropLeadingDash_cons_dash]; exact noDD_tail_of_cons h
    · rwa [dropLeadingDash_cons_ne a t ha]

theorem noDD_reverse {l : List Char} (h : NoDD l) : NoDD l.reverse := by
  rw [NoDD, List.chain'_reverse]
  exact h.imp (fun a b hab hcontra => hab ⟨hcontra.2, hcontra.1⟩)

theorem head?_dropLeadingDash {l : List Char} (h : NoDD l) :
    ∀ c, (dropLeadingDash l).head? = some c → ¬(c = '-') := by
  intro c hc
  cases l with
  | nil => exact Option.noConfusion hc
  | cons a t =>
    by_cases ha : a = '-'
    · subst ha
      rw [dropLeadingDash_cons_dash] at hc
      intro hcd
      subst hcd
      have := (List.chain'_cons'.mp h).1 '-' hc
      exact this ⟨rfl, rfl⟩
    · rw [dropLeadingDash_cons_ne a t ha] at hc
      injection hc with hc
      subst hc
      exact ha

theorem getLast?_dropLeadingDash {l : List Char}
    (h : ∀ c, l.getLast? = some c → ¬(c = '-')) :
    ∀ c, (dropLeadingDash l).getLast? = some c → ¬(c = '-') := by
  intro c hc
  cases l with
  | nil => exact Option.noConfusion hc
  | cons a t =>
    by_cases ha : a = '-'
    · subst ha
      rw [dropLeadingDash_cons_dash] at hc
      cases t with
      | nil => exact Option.noConfusion hc
      | cons x xs =>
        apply h c
        rw [List.getLast?_cons_cons]
        exact hc
    · rw [dropLeadingDash_cons_ne a t ha] at hc
      exact h c hc

theorem slugifyList_noDD (l : List Char) : NoDD (slugifyList l) := by
  unfold slugifyList dropTrailingDash
  exact noDD_reverse (noDD_dropLeadingDash (noDD_reverse (noDD_dropLeadingDash
    (noDD_collapseDashes _ false))))

theorem slugifyList_head (l : List Char) :
    ∀ c, (slugifyList l).head? = some c → ¬(c = '-') := by
  intro c hc
  unfold slugifyList dropTrailingDash at hc
  rw [List.head?_reverse] at hc
  refine getLast?_dropLeadingDash ?_ c hc
  intro c' hc'
  rw [List.getLast?_reverse] at hc'
  exact head?_dropLeadingDash (noDD_collapseDashes _ false) c' hc'

theorem slugifyList_getLast (l : List Char) :
    ∀ c, (slugifyList l).getLast? = some c → ¬(c = '-') := by
  intro c hc
  unfold slugifyList dropTrailingDash at hc
  rw [List.getLast?_reverse] at hc
  exact head?_dropLeadingDash
    (noDD_reverse (noDD_dropLeadingDash (noDD_collapseDashes _ false))) c hc

theorem allowed_toLowerChar_id (c : Char) (h : allowedSlugChar c = true) :
    toLowerChar c = c := by
  simp only [allowedSlugChar, isLowerAZ, isDigitC, Bool.or_eq_true, Bool.and_eq_true,
    decide_eq_true_eq] at h
  unfold toLowerChar
  rw [if_neg]
  rcases h with (⟨h1, h2⟩ | ⟨h1, h2⟩) | h3
  · omega
  · omega
  · subst h3; decide

theorem allowed_not_space (c : Char) (h : allowedSlugChar c = true) :
    jsSpace c = false := by
  simp only [allowedSlugChar, isLowerAZ, isDigitC, Bool.or_eq_true, Bool.and_eq_true,
    decide_eq_true_eq] at h
  simp only [jsSpace, Bool.or_eq_false_iff, decide_eq_false_iff_not]
  rcases h with (⟨h1, h2⟩ | ⟨h1, h2⟩) | h3
  · omega
  · omega
  · subst h3; decide

theorem allowed_keep (c : Char) (h : allowedSlugChar c = true) : slugKeep c = true := by
  simp only [allowedSlugChar, Bool.or_eq_true] at h
  simp only [slugKeep, Bool.or_eq_true]
  rcases h with (h | h) | h
  · exact Or.inl (Or.inl (Or.inl h))
  · exact Or.inl (Or.inl (Or.inr h))
  · exact Or.inr h

theorem map_toLowerChar_id {l : List Char} (h : ∀ c ∈ l, allowedSlugChar c = true) :
    l.map toLowerChar = l := by
  induction l with
  | nil => rfl
  | cons a t ih =>
    rw [List.map_cons, allowed_toLowerChar_id a (h a (List.mem_cons_self _ _)),
      ih (fun c hc => h c (List.mem_cons_of_mem _ hc))]

theorem dropWhile_id_of_all {p : Char → Bool} {l : List Char}
    (h : ∀ c ∈ l, p c = false) : l.dropWhile p = l := by
  cases l with
  | nil => rfl
  | cons a t =>
    rw [List.dropWhile_cons_of_neg]
    rw [h a (List.mem_cons_self _ _)]
    exact Bool.false_ne_true

theorem trimList_id {l : List Char} (h : ∀ c ∈ l, jsSpace c = false) :
    trimList l = l := by
  unfold trimList
  rw [dropWhile_id_of_all h,
    dropWhile_id_of_all (fun c hc => h c (List.mem_reverse.mp hc)),
    List.reverse_reverse]

theorem spacesToDashes_id {l : List Char} (h : ∀ c ∈ l, jsSpace c = false) :
    ∀ b, spacesToDashes b l = l := by
  induction l with
  | nil => intro b; rfl
  | cons a t ih =>
    intro b
    rw [spacesToDashes_cons_ne b a t (h a (List.mem_cons_self _ _)),
      ih (fun c hc => h c (List.mem_cons_of_mem _ hc)) false]

theorem collapseDashes_id :
    ∀ {l : List Char}, NoDD l → ∀ b, (b = true → l.head? ≠ some '-') →
      collapseDashes b l = l := by
  intro l
  induction l with
  | nil => intro _ b _; rfl
  | cons a t ih =>
    intro h b hb
    by_cases ha : a = '-'
    · subst ha
      cases b with
      | true => exact absurd rfl (fun hh => hb hh rfl)
      | false =>
        rw [collapseDashes_cons_dash_false]
        rw [ih (noDD_tail_of_cons h) true ?_]
        intro _ hhead
        have := (List.chain'_cons'.mp h).1 '-' hhead
        exact this ⟨rfl, rfl⟩
    · rw [collapseDashes_cons_ne b a t ha,
        ih (noDD_tail_of_cons h) false (fun hf => absurd hf (by decide))]

theorem dropLeadingDash_id {l : List Char} (h : l.head? ≠ some '-') :
    dropLeadingDash l = l := by
  cases l with
  | nil => rfl
  | cons a t =>
    by_cases ha : a = '-'
    · subst ha; exact absurd rfl h
    · exact dropLeadingDash_cons_ne a t ha

theorem dropTrailingDash_id {l : List Char} (h : l.getLast? ≠ some '-') :
    dropTrailingDash l = l := by
  unfold dropTrailingDash
  rw [dropLeadingDash_id, List.reverse_reverse]
  rw [List.head?_reverse]
  exact h

theorem slugifyList_fixed {y : List Char} (hall : ∀ c ∈ y, allowedSlugChar c = true)
    (hnd : NoDD y) (hh : y.head? ≠ some '-') (hl : y.getLast? ≠ some '-') :
    slugifyList y = y := by
  have hnsp : ∀ c ∈ y, jsSpace c = false := fun c hc => allowed_not_space c (hall c hc)
  unfold slugifyList
  rw [map_toLowerChar_id hall, trimList_id hnsp,
    List.filter_eq_self.mpr (fun c hc => allowed_keep c (hall c hc)),
    spacesToDashes_id hnsp false,
    collapseDashes_id hnd false (fun hf => absurd hf (by decide)),
    dropLeadingDash_id hh, dropTrailingDash_id hl]

theorem collapseDashes_true_allDash {l : List Char} (h : ∀ c ∈ l, c = '-') :
    collapseDashes true l = [] := by
  induction l with
  | nil => rfl
  | cons a t ih =>
    have ha := h a (List.mem_cons_self _ _)
    subst ha
    rw [collapseDashes_cons_dash_true]
    exact ih (fun c hc => h c (List.mem_cons_of_mem _ hc))

theorem slugifyList_empty_of_no_alnum {l : List Char}
    (h : ∀ c ∈ l, isLowerAZ (toLowerChar c) = false ∧ isDigitC (toLowerChar c) = false) :
    slugifyList l = [] := by
  have hD : ∀ c ∈ spacesToDashes false ((trimList (l.map toLowerChar)).filter slugKeep),
      c = '-' := by
    intro c hc
    rcases mem_spacesToDashes _ false hc with hd | ⟨hmem, hnsp⟩
    · exact hd
    have hfil := List.mem_filter.mp hmem
    have hmem2 := mem_trimList hfil.1
    obtain ⟨a, ha, rfl⟩ := List.mem_map.mp hmem2
    have hkeep := hfil.2
    simp only [slugKeep, Bool.or_eq_true, decide_eq_true_eq] at hkeep
    rcases hkeep with ((hk | hk) | hk) | hk
    · rw [(h a ha).1] at hk; exact Bool.noConfusion hk
    · rw [(h a ha).2] at hk; exact Bool.noConfusion hk
    · rw [hnsp] at hk; exact Bool.noConfusion hk
    · exact hk
  unfold slugifyList
  rcases hE : spacesToDashes false ((trimList (l.map toLowerChar)).filter slugKeep)
      with _ | ⟨a, t⟩
  · rfl
  · rw [hE] at hD
    have ha := hD a (List.mem_cons_self _ _)
    subst ha
    rw [collapseDashes_cons_dash_false,
      collapseDashes_true_allDash (fun c hc => hD c (List.mem_cons_of_mem _ hc)),
      dropLeadingDash_cons_dash]
    rfl

/-- C9: the slug generator is a pure function; for every input it produces
a string of characters drawn only from lowercase letters, digits and
dashes (hence lowercase, trimmed, whitespace-free), with no leading and no
trailing dash; an input with no alphanumeric content (in particular an
empty or all-invalid one) yields the empty string; and concretely
slugify "Hello, World!" is hello-world and the multiple-spaces example
collapses its whitespace runs to single dashes. -/
theorem slugifyContract (s : String) :
    slugify "Hello, World!" = "hello-world"
    ∧ slugify "  multiple   spaces " = "multiple-spaces"
    ∧ (∀ c ∈ (slugify s).data, allowedSlugChar c = true)
    ∧ (slugify s).data.head? ≠ some '-'
    ∧ (slugify s).data.getLast? ≠ some '-'
    ∧ (s.data.all (fun c => !(isLowerAZ (toLowerChar c) || isDigitC (toLowerChar c))) = true →
        slugify s = "") := by
  refine ⟨by decide, by decide, ?_, ?_, ?_, ?_⟩
  · intro c hc
    exact mem_slugifyList hc
  · intro hc
    exact slugifyList_head s.data '-' hc rfl
  · intro hc
    exact slugifyList_getLast s.data '-' hc rfl
  · intro hall
    rw [List.all_eq_true] at hall
    have h : ∀ c ∈ s.data, isLowerAZ (toLowerChar c) = false ∧
        isDigitC (toLowerChar c) = false := by
      intro c hc
      have := hall c hc
      rw [Bool.not_eq_true', Bool.or_eq_false_iff] at this
      exact this
    show (⟨slugifyList s.data⟩ : String) = ""
    rw [slugifyList_empty_of_no_alnum h]

/-- Witness for C9 at concrete inputs: an all-invalid input yields the
empty slug, and a character of a concrete slug is in the allowed class. -/
theorem slugifyContract_witness :
    slugify "@@ !! @@" = "" ∧ allowedSlugChar 'h' = true := by
  constructor
  · exact (slugifyContract "@@ !! @@").2.2.2.2.2 (by decide)
  · exact (slugifyContract "Hello, World!").2.2.1 'h' (by decide)

/-- C10: the slug generator is idempotent — applying slugify to any of its
outputs returns that output unchanged, so in particular
slugify (slugify x) equals slugify x for every input x (and a fortiori for
every already-valid slug-shaped input). -/
theorem slugifyIdempotent (s : String) : slugify (slugify s) = slugify s := by
  show (⟨slugifyList (slugify s).data⟩ : String) = slugify s
  have hfix : slugifyList (slugifyList s.data) = slugifyList s.data := by
    refine slugifyList_fixed (fun c hc => mem_slugifyList hc) (slugifyList_noDD s.data) ?_ ?_
    · intro hc; exact slugifyList_head s.data '-' hc rfl
    · intro hc; exact slugifyList_getLast s.data '-' hc rfl
  show (⟨slugifyList (slugifyList s.data)⟩ : String) = slugify s
  rw [hfix]
  rfl

/-- Witness for C6 at concrete inputs: the demo event with time 09:30
saves successfully with that time stored, and the same event with time
9:30 fails with the time ValidationError. -/
theorem eventTimeValidation_witness :
    validateEvent e1demo = .ok (mkEventRecord e1demo ⟨2025, 1, 1⟩)
    ∧ validateEvent { e1demo with time := "9:30" } =
        .error (.validationError "Invalid time format. Expected HH:MM in 24-hour format.") := by
  constructor
  · exact ((eventTimeValidation e1demo (by decide) (by decide) (by decide)).2.1
      ⟨2025, 1, 1⟩ (by decide) (by decide)).1
  · exact (eventTimeValidation { e1demo with time := "9:30" }
      (by decide) (by decide) (by decide)).2.2 ⟨2025, 1, 1⟩ (by decide) (by decide)

/-- Witness for C7 at concrete inputs: an impossible calendar date fails
with the date ValidationError, and the demo event stores its date as the
ISO-8601 instant. -/
theorem eventDateValidation_witness :
    validateEvent { e1demo with date := "2025-02-29" } =
      .error (.validationError "Invalid date format. Expected a valid date string.")
    ∧ (mkEventRecord e1demo ⟨2025, 1, 1⟩).date = "2025-01-01T00:00:00.000Z" := by
  constructor
  · exact (eventDateValidation { e1demo with date := "2025-02-29" }
      (by decide) (by decide) (by decide)).1 (by decide)
  · exact ((eventDateValidation e1demo (by decide) (by decide) (by decide)).2
      ⟨2025, 1, 1⟩ (by decide) (by decide)).2

/-- Witness for C8 at concrete inputs: the demo event with an empty agenda
fails with the agenda ValidationError. -/
theorem eventArraysValidation_witness :
    validateEvent { e1demo with agenda := [] } =
      .error (.validationError "Field agenda must be a non-empty array of non-empty strings.") := by
  exact (eventArraysValidation { e1demo with agenda := [] } (by decide)).2.1 (by decide)
